import Mathlib

/-!
Verification development for the Noted repository (src/script.js).

The repository is a browser note-taking widget.  `script.js` holds the app in
two revisions; the later revision (the one the specification follows) defines
the operations modelled here: `updateNoteContent`, `deleteNote`,
`handleNewNoteClick`, `changeNoteColor`, the `localStorage` load/save glue
(`JSON.parse` / `JSON.stringify` inside try/catch), and the caret helpers
`placeCursorAtEnd` / `handleContentChange` from the earlier revision.

Modelling conventions:
* JavaScript numbers appearing in the app are the integer timestamps produced
  by `Date.now()`; they are modelled as `Int`.
* Effects are modelled as explicit inputs: `Date.now()` becomes a `now`
  argument, `Math.floor(Math.random() * colors.length)` becomes a
  `Fin colors.length` argument (a uniformly distributed real in `[0, 1)`
  scaled and floored yields a uniformly distributed index), and the success
  of `localStorage.setItem` becomes a `writeOk : Bool` argument.
* `JSON.stringify` / `JSON.parse` are modelled by an executable printer for
  note collections and an executable fueled JSON parser over `List Char`.
  The parser covers the JSON fragment the app can ever store: integer
  numbers (every number the app writes is an integer id) and documents
  without insignificant whitespace (`JSON.stringify` emits none).
* Exceptions caught by the app's try/catch blocks are modelled with `Except`;
  a caught exception corresponds to the total function returning the
  fallback value.
-/

namespace Noted

/-- A note record as created by `handleNewNoteClick` in src/script.js:
fields `id`, `title`, `content`, `color`, plus the transient `isNew` flag
that `updateNoteContent` sets to `false` (absent on freshly created notes,
modelled as `none`). -/
structure Note where
  id : Int
  title : String
  content : String
  color : String
  isNew : Option Bool := none
deriving Repr, DecidableEq

/-- The React component state of `App`: the note collection held by
`useState` and the Editing Focus `editingNoteId` (a note id or `null`). -/
structure AppState where
  notes : List Note
  editingNoteId : Option Int
deriving Repr, DecidableEq

/-- The fixed palette `colors` of the latest revision (src/script.js lines
229-232). -/
def colors : List String :=
  ["bg-red-500", "bg-yellow-500", "bg-orange-500", "bg-green-500",
   "bg-blue-500", "bg-purple-500", "bg-pink-500", "bg-indigo-500",
   "bg-teal-500", "bg-lime-500", "bg-amber-500", "bg-cyan-500"]

/-- The computed property name `[field]` used by `updateNoteContent`; the
call sites pass `'title'` and `'content'`, and `'color'` is the remaining
mutable string field of a note. -/
inductive Field where
  | title
  | content
  | color
deriving Repr, DecidableEq

/-- The object spread `{ ...note, [field]: value, isNew: false }` from
`updateNoteContent` (src/script.js line 284): replaces the named field,
forces `isNew` to `false`, keeps every other field. -/
def setField (note : Note) (field : Field) (value : String) : Note :=
  match field with
  | .title => { note with title := value, isNew := some false }
  | .content => { note with content := value, isNew := some false }
  | .color => { note with color := value, isNew := some false }

/-- `updateNoteContent(id, field, value)` (src/script.js lines 282-286):
`notes.map(note => note.id === id ? { ...note, [field]: value, isNew: false } : note)`. -/
def updateNoteContent (notes : List Note) (id : Int) (field : Field)
    (value : String) : List Note :=
  notes.map fun note => if note.id = id then setField note field value else note

/-- `deleteNote(id)` (src/script.js lines 292-298): keeps the notes with
`note.id !== id` and clears `editingNoteId` when it equals the removed id. -/
def deleteNote (s : AppState) (id : Int) : AppState :=
  { notes := s.notes.filter fun note => note.id != id,
    editingNoteId := if s.editingNoteId = some id then none else s.editingNoteId }

/-- `handleNewNoteClick` (src/script.js lines 300-309): appends a note with
`id: Date.now()`, title `note-${notes.length + 1}`, empty content and the
neutral default color, and focuses it.  `Date.now()` is passed in as `now`. -/
def handleNewNoteClick (s : AppState) (now : Int) : AppState :=
  let newNote : Note :=
    { id := now,
      title := "note-" ++ toString (s.notes.length + 1),
      content := "",
      color := "bg-gray-700" }
  { notes := s.notes ++ [newNote], editingNoteId := some newNote.id }

/-- `changeNoteColor(id)` (src/script.js lines 312-317): picks
`colors[Math.floor(Math.random() * colors.length)]` and maps it onto the
note with the given id.  The random index is passed in as `randomIndex`. -/
def changeNoteColor (notes : List Note) (id : Int)
    (randomIndex : Fin colors.length) : List Note :=
  let randomColor := colors.get randomIndex
  notes.map fun note => if note.id = id then { note with color := randomColor } else note

/-- A contentEditable field reduced to what the caret logic observes: the
flattened text and the caret offset (number of characters before the caret). -/
structure EditableField where
  text : String
  caret : Nat
deriving Repr, DecidableEq

/-- `placeCursorAtEnd` (src/script.js lines 46-58): `range.selectNodeContents`
followed by `range.collapse(false)` puts the caret after the last character,
i.e. at offset `text.length`. -/
def placeCursorAtEnd (field : EditableField) : EditableField :=
  { field with caret := field.text.length }

/-- `handleContentChange` of the earlier revision (src/script.js lines 74-81):
reads the field's new markup, stores it via `updateNoteContent`, and after the
re-render calls `placeCursorAtEnd` on the field.  No caret offset is read at
any point. -/
def handleContentChange (field : EditableField) (newText : String) :
    EditableField :=
  placeCursorAtEnd { field with text := newText }

/-! ### JSON documents and the serialization the app persists -/

/-- JSON documents, with numbers restricted to integers (every number the app
stores is a `Date.now()` id). -/
inductive Json where
  | null
  | bool (b : Bool)
  | num (n : Int)
  | str (s : String)
  | arr (elems : List Json)
  | obj (members : List (String × Json))
deriving Repr

/-- Decimal digit to character, for the number printing of `JSON.stringify`. -/
def digitChar (d : Nat) : Char :=
  match d with
  | 0 => '0' | 1 => '1' | 2 => '2' | 3 => '3' | 4 => '4'
  | 5 => '5' | 6 => '6' | 7 => '7' | 8 => '8' | _ => '9'

/-- Big-endian decimal digits of `m`, assuming `m ≤ fuel` (empty on `m = 0`). -/
def natCharsAux : Nat → Nat → List Char
  | 0, _ => []
  | fuel + 1, m =>
    if m = 0 then [] else natCharsAux fuel (m / 10) ++ [digitChar (m % 10)]

/-- Decimal representation of a natural number, as `JSON.stringify` prints it. -/
def natChars (n : Nat) : List Char :=
  if n = 0 then ['0'] else natCharsAux n n

/-- Decimal representation of an integer, as `JSON.stringify` prints it. -/
def intChars (i : Int) : List Char :=
  if i < 0 then '-' :: natChars (-i).toNat else natChars i.toNat

/-- Lowercase hexadecimal digit, for `\u00XX` escapes. -/
def hexDig (d : Nat) : Char :=
  match d with
  | 0 => '0' | 1 => '1' | 2 => '2' | 3 => '3' | 4 => '4' | 5 => '5'
  | 6 => '6' | 7 => '7' | 8 => '8' | 9 => '9' | 10 => 'a' | 11 => 'b'
  | 12 => 'c' | 13 => 'd' | 14 => 'e' | _ => 'f'

/-- The string-character escaping performed by `JSON.stringify`: quote,
backslash and the named control escapes, `\u00XX` for the remaining control
characters, everything else verbatim. -/
def escapeChar (c : Char) : List Char :=
  if c = '"' then ['\\', '"']
  else if c = '\\' then ['\\', '\\']
  else if c = '\n' then ['\\', 'n']
  else if c = '\r' then ['\\', 'r']
  else if c = '\t' then ['\\', 't']
  else if c = '\x08' then ['\\', 'b']
  else if c = '\x0c' then ['\\', 'f']
  else if c.toNat < 32 then
    ['\\', 'u', '0', '0', hexDig (c.toNat / 16), hexDig (c.toNat % 16)]
  else [c]

/-- Escape every character of a character list. -/
def escList (l : List Char) : List Char := (l.map escapeChar).flatten

/-- Escape every character of a string. -/
def escChars (s : String) : List Char := escList s.data

/-- A JSON string literal: quote, escaped body, quote. -/
def quoteChars (s : String) : List Char := '"' :: escChars s ++ ['"']

/-- `true` / `false` as printed by `JSON.stringify`. -/
def boolChars (b : Bool) : List Char := if b then "true".data else "false".data

/-- One `"key":value` member as printed by `JSON.stringify` (keys of the app
contain no characters needing escapes, but are escaped uniformly). -/
def keyVal (key : String) (valueChars : List Char) : List Char :=
  '"' :: escChars key ++ '"' :: ':' :: valueChars

/-- The optional trailing `,"isNew":b` member. -/
def isNewChars : Option Bool → List Char
  | none => []
  | some b => ',' :: keyVal "isNew" (boolChars b)

/-- `JSON.stringify` of one note object, with the key order in which the keys
were inserted: `id`, `title`, `content`, `color`, then `isNew` when present. -/
def noteChars (n : Note) : List Char :=
  '\x7b' :: keyVal "id" (intChars n.id)
    ++ ',' :: keyVal "title" (quoteChars n.title)
    ++ ',' :: keyVal "content" (quoteChars n.content)
    ++ ',' :: keyVal "color" (quoteChars n.color)
    ++ isNewChars n.isNew ++ ['\x7d']

/-- The element list of the printed array, after the opening bracket. -/
def notesTail : List Note → List Char
  | [] => [']']
  | [n] => noteChars n ++ [']']
  | n :: ns => noteChars n ++ ',' :: notesTail ns

/-- `JSON.stringify(notes)` as a character list. -/
def notesChars (ns : List Note) : List Char := '[' :: notesTail ns

/-- `JSON.stringify(notes)` (src/script.js line 247): the serialized form of
the collection written to `localStorage`. -/
def serializeNotes (ns : List Note) : String := String.mk (notesChars ns)

/-! ### The JSON parser (`JSON.parse`) -/

/-- Hexadecimal digit value, for `\uXXXX` escapes. -/
def hexVal (c : Char) : Option Nat :=
  if 48 ≤ c.toNat ∧ c.toNat ≤ 57 then some (c.toNat - 48)
  else if 97 ≤ c.toNat ∧ c.toNat ≤ 102 then some (c.toNat - 87)
  else if 65 ≤ c.toNat ∧ c.toNat ≤ 70 then some (c.toNat - 55)
  else none

/-- The single-character escapes accepted by `JSON.parse`. -/
def unescapeChar (e : Char) : Option Char :=
  if e = '"' then some '"'
  else if e = '\\' then some '\\'
  else if e = '/' then some '/'
  else if e = 'n' then some '\n'
  else if e = 't' then some '\t'
  else if e = 'r' then some '\r'
  else if e = 'b' then some '\x08'
  else if e = 'f' then some '\x0c'
  else none

/-- Parse the body of a JSON string literal up to the closing quote,
returning the unescaped characters and the remaining input.  Raw control
characters are rejected, as `JSON.parse` rejects them. -/
def parseStringBody : List Char → Option (List Char × List Char)
  | [] => none
  | c :: rest =>
    if c = '"' then some ([], rest)
    else if c = '\\' then
      match rest with
      | [] => none
      | e :: rs =>
        if e = 'u' then
          match rs with
          | h1 :: h2 :: h3 :: h4 :: rs2 =>
            match hexVal h1, hexVal h2, hexVal h3, hexVal h4 with
            | some a, some b, some x, some y =>
              (parseStringBody rs2).map fun p =>
                (Char.ofNat (4096 * a + 256 * b + 16 * x + y) :: p.1, p.2)
            | _, _, _, _ => none
          | _ => none
        else
          match unescapeChar e with
          | some u => (parseStringBody rs).map fun p => (u :: p.1, p.2)
          | none => none
    else if 32 ≤ c.toNat then
      (parseStringBody rest).map fun p => (c :: p.1, p.2)
    else none

/-- Accumulate a big-endian decimal digit list into a number. -/
def foldDigits (ds : List Char) : Nat :=
  ds.foldl (fun acc c => 10 * acc + (c.toNat - 48)) 0

/-- A fueled recursive-descent parser for the JSON fragment described in the
module docstring.  The tail of an array (resp. object) is parsed by
re-entering the parser on `'[' :: rest` (resp. on the reopened object), so a
single structurally recursive function suffices; the fuel only has to exceed
the nesting plus element count, and callers pass the input length. -/
def parseJson : Nat → List Char → Option (Json × List Char)
  | 0, _ => none
  | fuel + 1, cs =>
    match cs with
    | [] => none
    | c :: rest =>
      if c = 'n' then
        if rest.take 3 = ['u', 'l', 'l'] then some (.null, rest.drop 3) else none
      else if c = 't' then
        if rest.take 3 = ['r', 'u', 'e'] then some (.bool true, rest.drop 3) else none
      else if c = 'f' then
        if rest.take 4 = ['a', 'l', 's', 'e'] then some (.bool false, rest.drop 4)
        else none
      else if c = '"' then
        (parseStringBody rest).map fun p => (.str (String.mk p.1), p.2)
      else if c = '[' then
        if rest.head? = some ']' then some (.arr [], rest.tail)
        else
          match parseJson fuel rest with
          | none => none
          | some (v, r1) =>
            if r1.head? = some ',' then
              if r1.tail.head? = some ']' then none
              else
                match parseJson fuel ('[' :: r1.tail) with
                | some (.arr vs, r3) => some (.arr (v :: vs), r3)
                | _ => none
            else if r1.head? = some ']' then some (.arr [v], r1.tail)
            else none
      else if c = '\x7b' then
        if rest.head? = some '\x7d' then some (.obj [], rest.tail)
        else if rest.head? = some '"' then
          match parseStringBody rest.tail with
          | none => none
          | some (k, r1) =>
            if r1.head? = some ':' then
              match parseJson fuel r1.tail with
              | none => none
              | some (v, r3) =>
                if r3.head? = some ',' then
                  if r3.tail.head? = some '"' then
                    match parseJson fuel ('\x7b' :: r3.tail) with
                    | some (.obj kvs, r5) => some (.obj ((String.mk k, v) :: kvs), r5)
                    | _ => none
                  else none
                else if r3.head? = some '\x7d' then some (.obj [(String.mk k, v)], r3.tail)
                else none
            else none
        else none
      else if c = '-' then
        match rest.head? with
        | some d =>
          if d.isDigit then
            some (.num (-(Int.ofNat (foldDigits (rest.takeWhile Char.isDigit)))),
              rest.dropWhile Char.isDigit)
          else none
        | none => none
      else if c.isDigit then
        some (.num (Int.ofNat (foldDigits ((c :: rest).takeWhile Char.isDigit))),
          (c :: rest).dropWhile Char.isDigit)
      else none

/-- `JSON.parse(s)`: parse the whole string; leftover input or a parse
failure yields `none` (the exception the app catches). -/
def jsonParse (s : String) : Option Json :=
  match parseJson (s.data.length + 1) s.data with
  | some (v, []) => some v
  | _ => none

/-- The `useState` initializer of `App` (src/script.js lines 234-242):
`saved ? JSON.parse(saved) : []` inside try/catch.  An absent value and the
falsy empty string give `[]`; a parse exception is caught (logged) and gives
`[]`; otherwise the parsed document is returned unvalidated. -/
def loadNotes (stored : Option String) : Json :=
  match stored with
  | none => .arr []
  | some saved =>
    if saved = "" then .arr []
    else
      match jsonParse saved with
      | some v => v
      | none => .arr []

/-- The outcome of `localStorage.setItem`: the stored value on success, an
exception (e.g. `QuotaExceededError`) on failure. -/
def setItemResult (value : String) (writeOk : Bool) : Except String String :=
  if writeOk then .ok value else .error "QuotaExceededError"

/-- The persistence `useEffect` (src/script.js lines 245-251):
`localStorage.setItem('notes', JSON.stringify(notes))` inside try/catch; a
write failure is caught (logged) and leaves the previously stored value. -/
def saveNotes (stored : Option String) (notes : List Note) (writeOk : Bool) :
    Option String :=
  match setItemResult (serializeNotes notes) writeOk with
  | .ok v => some v
  | .error _ => stored

/-! ### Reading a parsed document back as note records -/

/-- Read one note record off a parsed JSON object, the way the app reads the
properties of the parsed objects: field lookups by key. -/
def noteFromJson : Json → Option Note
  | .obj kvs =>
    match List.lookup "id" kvs, List.lookup "title" kvs,
        List.lookup "content" kvs, List.lookup "color" kvs with
    | some (.num i), some (.str t), some (.str c), some (.str col) =>
      match List.lookup "isNew" kvs with
      | none => some { id := i, title := t, content := c, color := col, isNew := none }
      | some (.bool b) => some { id := i, title := t, content := c, color := col, isNew := some b }
      | some _ => none
    | _, _, _, _ => none
  | _ => none

/-- Read every element of a parsed array as a note record. -/
def notesFromJsonList : List Json → Option (List Note)
  | [] => some []
  | v :: vs =>
    match noteFromJson v, notesFromJsonList vs with
    | some n, some ns => some (n :: ns)
    | _, _ => none

/-- Read a parsed document as a note collection (an array of note records). -/
def notesFromJson : Json → Option (List Note)
  | .arr vs => notesFromJsonList vs
  | _ => none

/-- Deserialization of a persisted collection: `JSON.parse` followed by
reading the parsed array as note records. -/
def deserializeNotes (s : String) : Option (List Note) :=
  (jsonParse s).bind notesFromJson

/-- The JSON document `JSON.parse` produces for one serialized note that
carries no `isNew` member. -/
def noteJsonCore (n : Note) : Json :=
  .obj [("id", .num n.id), ("title", .str n.title),
    ("content", .str n.content), ("color", .str n.color)]

/-! ### Sequences of create / remove operations -/

/-- One user operation on the collection, with the `Date.now()` timestamp of
a creation made explicit. -/
inductive Op where
  | create (now : Int)
  | remove (id : Int)
deriving Repr, DecidableEq

/-- Run one operation on the component state. -/
def runOp (s : AppState) : Op → AppState
  | .create now => handleNewNoteClick s now
  | .remove id => deleteNote s id

/-- Run a sequence of operations on the component state. -/
def runOps (s : AppState) : List Op → AppState
  | [] => s
  | op :: ops => runOps (runOp s op) ops

/-- Timestamp freshness along a sequence: every creation happens at an
instant `Date.now()` that differs from every id currently in the collection.
`Date.now()` does not guarantee this by itself (it can return the same
millisecond twice). -/
def freshSeq (s : AppState) : List Op → Bool
  | [] => true
  | .create now :: ops =>
    s.notes.all (fun note => note.id != now) && freshSeq (runOp s (.create now)) ops
  | .remove id :: ops => freshSeq (runOp s (.remove id)) ops

/-! ### General helper lemmas -/

/-- Mapping a function that fixes every element of a list is the identity. -/
theorem map_eq_self_of_fixes {α : Type} (l : List α) (f : α → α)
    (h : ∀ a ∈ l, f a = a) : l.map f = l := by
  induction l with
  | nil => rfl
  | cons a l ih =>
    simp only [List.map_cons, h a (by simp)]
    rw [ih fun b hb => h b (by simp [hb])]

/-! ### C1 — caret behaviour across an edit -/

/-- C1, counterexample.  With rendered text `"hello world"` and the caret
after character 5, replacing the content by `"hello, world"` does not land
the caret at index 5: `handleContentChange` never captures an offset and
`placeCursorAtEnd` puts the caret at index 12, the end of the new text. -/
theorem c1_counterexample :
    (handleContentChange { text := "hello world", caret := 5 } "hello, world").caret = 12 ∧
    (handleContentChange { text := "hello world", caret := 5 } "hello, world").caret ≠ 5 ∧
    (handleContentChange { text := "hello world", caret := 5 } "hello, world").caret =
      (handleContentChange { text := "hello world", caret := 5 } "hello, world").text.length :=
  ⟨rfl, by decide, rfl⟩

/-- C1 (amended): on an input event the code does not preserve the caret
offset; `handleContentChange` stores the new content and then
`placeCursorAtEnd` places the caret at the end of the new text, i.e. at
offset `newText.length`, regardless of where the caret was. -/
theorem c1_caret_jumps_to_end (field : EditableField) (newText : String) :
    (handleContentChange field newText).text = newText ∧
    (handleContentChange field newText).caret = newText.length :=
  ⟨rfl, rfl⟩

/-! ### C4 — update semantics -/

/-- C4: `update(id, field, value)` is a no-op when no note has the id;
otherwise it maps every position to itself except the positions holding the
note with the given id, whose named field becomes `value` and whose `isNew`
flag becomes `false`, with all other fields, all other notes and the order
(positions) unchanged. -/
theorem c4_update_spec (notes : List Note) (id : Int) (field : Field)
    (value : String) :
    ((∀ n ∈ notes, n.id ≠ id) → updateNoteContent notes id field value = notes) ∧
    (∀ i : Nat, (updateNoteContent notes id field value)[i]? =
      (notes[i]?).map fun n => if n.id = id then setField n field value else n) ∧
    (∀ n : Note, (setField n field value).id = n.id ∧
      (setField n field value).isNew = some false ∧
      (match field with
       | .title => (setField n field value).title = value ∧
           (setField n field value).content = n.content ∧
           (setField n field value).color = n.color
       | .content => (setField n field value).content = value ∧
           (setField n field value).title = n.title ∧
           (setField n field value).color = n.color
       | .color => (setField n field value).color = value ∧
           (setField n field value).title = n.title ∧
           (setField n field value).content = n.content)) := by
  refine ⟨?_, ?_, ?_⟩
  · intro h
    exact map_eq_self_of_fixes _ _ fun n hn => by simp [h n hn]
  · intro i
    simp [updateNoteContent, List.getElem?_map]
  · intro n
    cases field <;> simp [setField]

/-- C4, witness: concrete instances of the no-op case and of the update
case. -/
theorem c4_witness :
    updateNoteContent [{ id := 1, title := "t", content := "c", color := "k" }] 99
      Field.title "x" = [{ id := 1, title := "t", content := "c", color := "k" }] ∧
    (updateNoteContent [{ id := 1, title := "t", content := "c", color := "k" }] 1
      Field.title "x")[0]? =
      some { id := 1, title := "x", content := "c", color := "k", isNew := some false } :=
  ⟨(c4_update_spec _ 99 .title "x").1 (by decide),
   by rw [(c4_update_spec [{ id := 1, title := "t", content := "c", color := "k" }] 1
        Field.title "x").2.1 0]; rfl⟩

/-! ### C6 — Editing Focus after removal -/

/-- C6: removing the focused note clears the Editing Focus; removing any
other id leaves the Editing Focus unchanged. -/
theorem c6_focus_after_remove (s : AppState) (id : Int) :
    (s.editingNoteId = some id → (deleteNote s id).editingNoteId = none) ∧
    (s.editingNoteId ≠ some id → (deleteNote s id).editingNoteId = s.editingNoteId) := by
  constructor <;> intro h <;> simp [deleteNote, h]

/-- C6, witness: both branches at concrete states. -/
theorem c6_witness :
    (deleteNote { notes := [], editingNoteId := some 3 } 3).editingNoteId = none ∧
    (deleteNote { notes := [], editingNoteId := some 4 } 3).editingNoteId = some 4 :=
  ⟨(c6_focus_after_remove { notes := [], editingNoteId := some 3 } 3).1 rfl,
   (c6_focus_after_remove { notes := [], editingNoteId := some 4 } 3).2 (by decide)⟩

/-! ### C9 — save semantics -/

/-- C9: `save` writes the serialized collection on success; on a write
failure (quota exceeded) the exception is caught, so the previously
persisted value is untouched and nothing propagates: for every outcome the
function returns either the new serialized state or the prior state. -/
theorem c9_save_spec (stored : Option String) (notes : List Note) :
    saveNotes stored notes true = some (serializeNotes notes) ∧
    saveNotes stored notes false = stored ∧
    (∀ writeOk : Bool, saveNotes stored notes writeOk = some (serializeNotes notes) ∨
      saveNotes stored notes writeOk = stored) :=
  ⟨rfl, rfl, fun writeOk => by cases writeOk <;> simp [saveNotes, setItemResult]⟩

/-! ### C2 — id uniqueness under create / remove sequences -/

/-- C2, counterexample.  `create` takes its id from `Date.now()`, which can
deliver the same millisecond twice: two creations at timestamp 5 yield ids
`[5, 5]`, so the new id is not distinct from the existing one and the
collection's ids are no longer pairwise distinct. -/
theorem c2_counterexample :
    ((runOps { notes := [], editingNoteId := none }
        [Op.create 5, Op.create 5]).notes.map Note.id) = [5, 5] ∧
    ¬ ((runOps { notes := [], editingNoteId := none }
        [Op.create 5, Op.create 5]).notes.map Note.id).Nodup :=
  ⟨rfl, by decide⟩

/-- C2 (amended): `create` assigns `id = Date.now()`; provided every
creation happens at a timestamp different from every id then in the
collection (`freshSeq`), the new id is distinct from all existing ids and
any sequence of create/remove operations preserves pairwise-distinct ids. -/
theorem c2_ids_distinct_of_fresh (s : AppState) (ops : List Op)
    (hd : (s.notes.map Note.id).Nodup) (hf : freshSeq s ops = true) :
    ((runOps s ops).notes.map Note.id).Nodup := by
  induction ops generalizing s with
  | nil => exact hd
  | cons op ops ih =>
    cases op with
    | create now =>
      rw [freshSeq, Bool.and_eq_true, List.all_eq_true] at hf
      obtain ⟨h1, h2⟩ := hf
      refine ih _ ?_ h2
      simp only [runOp, handleNewNoteClick, List.map_append, List.map_cons,
        List.map_nil, List.nodup_append]
      refine ⟨hd, by simp, ?_⟩
      intro x hx
      simp only [List.mem_map] at hx
      obtain ⟨n, hn, rfl⟩ := hx
      have := h1 n hn
      simp only [bne_iff_ne, ne_eq] at this
      simp [this]
    | remove id =>
      rw [freshSeq] at hf
      refine ih _ ?_ hf
      simp only [runOp, deleteNote]
      exact ((List.filter_sublist _).map Note.id).nodup hd

/-- C2, witness: a fresh sequence of creations and removals, including the
reuse of a removed timestamp, keeps ids pairwise distinct. -/
theorem c2_witness :
    ((runOps { notes := [], editingNoteId := none }
        [Op.create 1, Op.remove 1, Op.create 1, Op.create 2]).notes.map Note.id).Nodup :=
  c2_ids_distinct_of_fresh _ _ (by decide) (by decide)

/-! ### C7 — three creations in sequence -/

/-- C7, counterexample.  Three creations within the same `Date.now()`
millisecond (timestamp 0) yield ids `[0, 0, 0]`, which are not pairwise
distinct, refuting the unconditional distinctness claimed. -/
theorem c7_counterexample :
    ((runOps { notes := [], editingNoteId := none }
        [Op.create 0, Op.create 0, Op.create 0]).notes.map Note.id) = [0, 0, 0] ∧
    ¬ ((runOps { notes := [], editingNoteId := none }
        [Op.create 0, Op.create 0, Op.create 0]).notes.map Note.id).Nodup :=
  ⟨rfl, by decide⟩

/-- C7 (amended): three creations in sequence from the empty collection
yield an ordered collection of length 3 titled `note-1`, `note-2`, `note-3`,
whose ids are the three creation timestamps, and the third note is the
Editing Focus; the ids are pairwise distinct provided the three `Date.now()`
readings are (they need not be: the clock can repeat within a millisecond). -/
theorem c7_three_creates (t1 t2 t3 : Int)
    (h12 : t1 ≠ t2) (h13 : t1 ≠ t3) (h23 : t2 ≠ t3) :
    (handleNewNoteClick (handleNewNoteClick (handleNewNoteClick
        { notes := [], editingNoteId := none } t1) t2) t3).notes.length = 3 ∧
    (handleNewNoteClick (handleNewNoteClick (handleNewNoteClick
        { notes := [], editingNoteId := none } t1) t2) t3).notes.map Note.title =
      ["note-1", "note-2", "note-3"] ∧
    (handleNewNoteClick (handleNewNoteClick (handleNewNoteClick
        { notes := [], editingNoteId := none } t1) t2) t3).notes.map Note.id =
      [t1, t2, t3] ∧
    ((handleNewNoteClick (handleNewNoteClick (handleNewNoteClick
        { notes := [], editingNoteId := none } t1) t2) t3).notes.map Note.id).Nodup ∧
    (handleNewNoteClick (handleNewNoteClick (handleNewNoteClick
        { notes := [], editingNoteId := none } t1) t2) t3).editingNoteId = some t3 := by
  refine ⟨rfl, ?_, rfl, ?_, rfl⟩
  · simp [handleNewNoteClick]
    exact ⟨rfl, rfl, rfl⟩
  · simp [handleNewNoteClick, h12, h13, h23]

/-- C7, witness: the scenario at the concrete distinct timestamps 1, 2, 3. -/
theorem c7_witness :
    (handleNewNoteClick (handleNewNoteClick (handleNewNoteClick
        { notes := [], editingNoteId := none } 1) 2) 3).notes.map Note.title =
      ["note-1", "note-2", "note-3"] ∧
    ((handleNewNoteClick (handleNewNoteClick (handleNewNoteClick
        { notes := [], editingNoteId := none } 1) 2) 3).notes.map Note.id).Nodup :=
  ⟨(c7_three_creates 1 2 3 (by decide) (by decide) (by decide)).2.1,
   (c7_three_creates 1 2 3 (by decide) (by decide) (by decide)).2.2.2.1⟩

/-! ### C8 — recolor semantics -/

/-- C8: with the random draw modelled as a uniformly distributed index,
`recolor` sets the color of exactly the notes with the given id to the drawn
palette entry and changes nothing else; the index-to-color map is a
bijection onto the fixed palette (no color excluded, repeats allowed since
the draw is independent of the current color), and the resulting collection
is persisted on a successful write. -/
theorem c8_recolor_spec (notes : List Note) (stored : Option String) (id : Int)
    (randomIndex : Fin colors.length) :
    (∀ i : Nat, (changeNoteColor notes id randomIndex)[i]? =
      (notes[i]?).map fun n =>
        if n.id = id then { n with color := colors.get randomIndex } else n) ∧
    colors.get randomIndex ∈ colors ∧
    (∀ c ∈ colors, ∃ r : Fin colors.length, colors.get r = c) ∧
    (∀ r1 r2 : Fin colors.length, colors.get r1 = colors.get r2 → r1 = r2) ∧
    saveNotes stored (changeNoteColor notes id randomIndex) true =
      some (serializeNotes (changeNoteColor notes id randomIndex)) := by
  refine ⟨?_, ?_, ?_, ?_, rfl⟩
  · intro i
    simp [changeNoteColor, List.getElem?_map]
  · exact List.get_mem _ _ _
  · intro c hc
    exact List.mem_iff_get.mp hc
  · intro r1 r2 h
    exact (List.Nodup.get_inj_iff (by decide)).mp h

/-- C8, witness: recoloring a concrete note with draw 0 yields the first
palette color, and the last palette color is reachable by some draw. -/
theorem c8_witness :
    (changeNoteColor [{ id := 7, title := "t", content := "", color := "bg-gray-700" }] 7
      ⟨0, by decide⟩)[0]? =
      some { id := 7, title := "t", content := "", color := "bg-red-500" } ∧
    ∃ r : Fin colors.length, colors.get r = "bg-cyan-500" := by
  constructor
  · rw [(c8_recolor_spec [{ id := 7, title := "t", content := "", color := "bg-gray-700" }]
      none 7 ⟨0, by decide⟩).1 0]
    rfl
  · exact (c8_recolor_spec [] none 0 ⟨0, by decide⟩).2.2.1 "bg-cyan-500" (by decide)

/-! ### C10 — removal deletes all matches; behaviour when id is absent -/

/-- C10, counterexample.  On a state whose Editing Focus dangles (focus id 5
with an empty collection — no note has id 5), `remove(5)` leaves the
collection unchanged but clears the focus, so the state is not left
completely unchanged. -/
theorem c10_counterexample :
    (deleteNote { notes := [], editingNoteId := some 5 } 5).notes = [] ∧
    (deleteNote { notes := [], editingNoteId := some 5 } 5).editingNoteId = none ∧
    (deleteNote { notes := [], editingNoteId := some 5 } 5).editingNoteId ≠ some 5 :=
  ⟨rfl, rfl, by decide⟩

/-- C10 (amended): `remove(id)` deletes every note whose id equals `id` (not
only the first match) and keeps every other note; when no note has that id
the collection is unchanged, and the whole state (Editing Focus included) is
unchanged provided the focus is absent or refers to a note in the collection
— the invariant every reachable state satisfies. -/
theorem c10_remove_spec (s : AppState) (id : Int) :
    (∀ n ∈ (deleteNote s id).notes, n.id ≠ id) ∧
    (∀ n ∈ s.notes, n.id ≠ id → n ∈ (deleteNote s id).notes) ∧
    ((∀ n ∈ s.notes, n.id ≠ id) →
      (s.editingNoteId = none ∨ ∃ m ∈ s.notes, s.editingNoteId = some m.id) →
      deleteNote s id = s) := by
  refine ⟨?_, ?_, ?_⟩
  · intro n hn
    simp only [deleteNote, List.mem_filter, bne_iff_ne, ne_eq] at hn
    exact hn.2
  · intro n hn hne
    simp [deleteNote, List.mem_filter, hn, hne]
  · intro habs hfoc
    cases s with
    | mk notes editingNoteId =>
      simp only [deleteNote, AppState.mk.injEq]
      constructor
      · exact List.filter_eq_self.mpr fun n hn => by simp [habs n hn]
      · rcases hfoc with h | ⟨m, hm, h⟩
        · simp only at h
          simp [h]
        · have : editingNoteId ≠ some id := by
            simp only at h
            rw [h]
            simp [habs m hm]
          simp [this]

/-- C10, witness: removing an absent id from a state with a valid focus
changes nothing, and removing a duplicated id deletes both copies. -/
theorem c10_witness :
    deleteNote { notes := [{ id := 1, title := "t", content := "c", color := "k" }], editingNoteId := some 1 } 9 = { notes := [{ id := 1, title := "t", content := "c", color := "k" }], editingNoteId := some 1 } ∧
    (∀ n ∈ (deleteNote { notes := [{ id := 2, title := "a", content := "", color := "x" }, { id := 2, title := "b", content := "", color := "y" }], editingNoteId := none } 2).notes, n.id ≠ 2) :=
  ⟨(c10_remove_spec _ 9).2.2 (by decide)
      (Or.inr ⟨{ id := 1, title := "t", content := "c", color := "k" }, by simp, rfl⟩),
   (c10_remove_spec _ 2).1⟩

/-! ### C3 — load semantics -/

/-- C3, counterexample.  A persisted value `"7"` is present and parses as
JSON, but is not an array of note records; `load` performs no structural
validation and returns the parsed number instead of the empty collection. -/
theorem c3_counterexample :
    loadNotes (some "7") = Json.num 7 ∧
    notesFromJson (Json.num 7) = none ∧
    loadNotes (some "7") ≠ Json.arr [] := by
  refine ⟨rfl, rfl, ?_⟩
  rw [show loadNotes (some "7") = Json.num 7 from rfl]
  simp

/-- C3 (amended): `load` returns the empty collection when the persisted
value is absent, empty, or fails to parse as JSON (the parse exception is
caught and logged, never propagated — `loadNotes` is total); but when the
value parses as JSON the parsed document is returned as-is, without checking
that it is an array of note records. -/
theorem c3_load_behavior (s : String) :
    loadNotes none = Json.arr [] ∧
    loadNotes (some "") = Json.arr [] ∧
    (jsonParse s = none → loadNotes (some s) = Json.arr []) ∧
    (∀ v, s ≠ "" → jsonParse s = some v → loadNotes (some s) = v) := by
  refine ⟨rfl, rfl, ?_, ?_⟩
  · intro h
    by_cases hs : s = ""
    · simp [loadNotes, hs]
    · simp [loadNotes, hs, h]
  · intro v hne hv
    simp [loadNotes, hne, hv]

/-- C3, witness: a value that fails to parse gives the empty collection; a
value that parses is returned as-is. -/
theorem c3_witness :
    loadNotes (some "[") = Json.arr [] ∧
    loadNotes (some "[1,2]") = Json.arr [Json.num 1, Json.num 2] :=
  ⟨(c3_load_behavior "[").2.2.1 rfl,
   (c3_load_behavior "[1,2]").2.2.2 _ (by decide) rfl⟩

/-! ### Round-trip development for C5: decimal digits -/

/-- Characters emitted by `digitChar` are decimal digits. -/
theorem digitChar_isDigit (d : Nat) (h : d < 10) : (digitChar d).isDigit = true := by
  interval_cases d <;> decide

/-- `digitChar` is inverted by the parser's digit-value computation. -/
theorem digitChar_toNat (d : Nat) (h : d < 10) : (digitChar d).toNat - 48 = d := by
  interval_cases d <;> decide

/-- No digits are emitted for zero. -/
theorem natCharsAux_zero (fuel : Nat) : natCharsAux fuel 0 = [] := by
  cases fuel <;> simp [natCharsAux]

/-- Every character emitted by `natCharsAux` is a decimal digit. -/
theorem natCharsAux_digits (fuel : Nat) :
    ∀ m, m ≤ fuel → ∀ c ∈ natCharsAux fuel m, c.isDigit = true := by
  induction fuel with
  | zero => intro m _ c hc; simp [natCharsAux] at hc
  | succ fuel ih =>
    intro m hm c hc
    rw [natCharsAux] at hc
    by_cases h0 : m = 0
    · simp [h0] at hc
    · rw [if_neg h0] at hc
      rcases List.mem_append.mp hc with h1 | h2
      · have hdiv : m / 10 ≤ fuel := by
          have := Nat.div_lt_self (Nat.pos_of_ne_zero h0) (by norm_num : 1 < 10)
          omega
        exact ih (m / 10) hdiv c h1
      · have : c = digitChar (m % 10) := by simpa using h2
        rw [this]
        exact digitChar_isDigit _ (Nat.mod_lt _ (by norm_num))

/-- Folding the emitted digits back recovers the number (with a generalized
accumulator). -/
theorem natCharsAux_foldl (fuel : Nat) :
    ∀ m, m ≤ fuel → m ≠ 0 → ∀ acc : Nat,
      (natCharsAux fuel m).foldl (fun a c => 10 * a + (c.toNat - 48)) acc =
        acc * 10 ^ (natCharsAux fuel m).length + m := by
  induction fuel with
  | zero => intro m hm h0 _; omega
  | succ fuel ih =>
    intro m hm h0 acc
    rw [natCharsAux, if_neg h0]
    have hmod : (digitChar (m % 10)).toNat - 48 = m % 10 :=
      digitChar_toNat _ (Nat.mod_lt _ (by norm_num))
    by_cases h10 : m / 10 = 0
    · have hm10 : m < 10 := by omega
      rw [h10]
      simp [natCharsAux_zero, List.foldl, hmod]
      have : m % 10 = m := Nat.mod_eq_of_lt hm10
      omega
    · have hdiv : m / 10 ≤ fuel := by
        have := Nat.div_lt_self (Nat.pos_of_ne_zero h0) (by norm_num : 1 < 10)
        omega
      rw [List.foldl_append]
      rw [ih (m / 10) hdiv h10 acc]
      simp only [List.foldl, List.length_append, List.length_cons, List.length_nil]
      rw [hmod]
      have hdm := Nat.div_add_mod m 10
      set k := (natCharsAux fuel (m / 10)).length with hk
      have hpow : 10 ^ (k + 1) = 10 ^ k * 10 := by ring
      calc 10 * (acc * 10 ^ k + m / 10) + m % 10
          = acc * (10 ^ k * 10) + (10 * (m / 10) + m % 10) := by ring
        _ = acc * 10 ^ (k + 1) + m := by rw [hdm, hpow]

/-- Every character of `natChars n` is a decimal digit. -/
theorem natChars_digits (n : Nat) : ∀ c ∈ natChars n, c.isDigit = true := by
  intro c hc
  rw [natChars] at hc
  by_cases h0 : n = 0
  · rw [if_pos h0] at hc
    simp at hc
    rw [hc]; decide
  · rw [if_neg h0] at hc
    exact natCharsAux_digits n n le_rfl c hc

/-- `natChars n` is never empty. -/
theorem natChars_ne_nil (n : Nat) : natChars n ≠ [] := by
  rw [natChars]
  by_cases h0 : n = 0
  · simp [h0]
  · rw [if_neg h0]
    cases n with
    | zero => exact absurd rfl h0
    | succ n =>
      rw [natCharsAux, if_neg h0]
      simp

/-- Folding the decimal representation of `n` recovers `n`. -/
theorem natChars_foldDigits (n : Nat) : foldDigits (natChars n) = n := by
  rw [foldDigits, natChars]
  by_cases h0 : n = 0
  · simp [h0]
  · rw [if_neg h0, natCharsAux_foldl n n le_rfl h0 0]
    simp

/-- `takeWhile` passes over a prefix every element of which satisfies the
predicate. -/
theorem takeWhile_append_all {α : Type} (p : α → Bool) (xs ys : List α)
    (hx : ∀ c ∈ xs, p c = true) :
    (xs ++ ys).takeWhile p = xs ++ ys.takeWhile p := by
  induction xs with
  | nil => simp
  | cons a xs ih =>
    have ha : p a = true := hx a (by simp)
    simp only [List.cons_append, List.takeWhile_cons, ha, if_true]
    rw [ih fun c hc => hx c (by simp [hc])]

/-- `dropWhile` drops a prefix every element of which satisfies the
predicate. -/
theorem dropWhile_append_all {α : Type} (p : α → Bool) (xs ys : List α)
    (hx : ∀ c ∈ xs, p c = true) :
    (xs ++ ys).dropWhile p = ys.dropWhile p := by
  induction xs with
  | nil => simp
  | cons a xs ih =>
    have ha : p a = true := hx a (by simp)
    simp only [List.cons_append, List.dropWhile_cons, ha, if_true]
    exact ih fun c hc => hx c (by simp [hc])

/-- `takeWhile` stops at a list whose head fails the predicate. -/
theorem takeWhile_eq_nil_of_head {α : Type} (p : α → Bool) (ys : List α)
    (hy : ∀ c, ys.head? = some c → p c = false) :
    ys.takeWhile p = [] := by
  cases ys with
  | nil => rfl
  | cons a ys => simp [List.takeWhile_cons, hy a rfl]

/-- `dropWhile` keeps a list whose head fails the predicate. -/
theorem dropWhile_eq_self_of_head {α : Type} (p : α → Bool) (ys : List α)
    (hy : ∀ c, ys.head? = some c → p c = false) :
    ys.dropWhile p = ys := by
  cases ys with
  | nil => rfl
  | cons a ys => simp [List.dropWhile_cons, hy a rfl]

/-- A decimal digit is none of the characters that select the other parser
branches. -/
theorem ne_of_isDigit (c : Char) (h : c.isDigit = true) :
    c ≠ 'n' ∧ c ≠ 't' ∧ c ≠ 'f' ∧ c ≠ '"' ∧ c ≠ '[' ∧ c ≠ '\x7b' ∧ c ≠ '-' := by
  refine ⟨?_, ?_, ?_, ?_, ?_, ?_, ?_⟩ <;>
    (intro heq; rw [heq] at h; exact absurd h (by decide))

/-- The parser reads back the decimal print of a natural number, stopping at
a non-digit continuation. -/
theorem parseJson_natChars (f : Nat) (m : Nat) (rest : List Char)
    (hrest : ∀ c, rest.head? = some c → c.isDigit = false) :
    parseJson (f + 1) (natChars m ++ rest) = some (.num (Int.ofNat m), rest) := by
  obtain ⟨c0, cs0, hcons⟩ := List.exists_cons_of_ne_nil (natChars_ne_nil m)
  have hdig : c0.isDigit = true := natChars_digits m c0 (by rw [hcons]; simp)
  obtain ⟨hn, ht, hf, hq, hbr, hob, hmi⟩ := ne_of_isDigit c0 hdig
  rw [hcons, List.cons_append]
  simp only [parseJson]
  rw [if_neg hn, if_neg ht, if_neg hf, if_neg hq, if_neg hbr, if_neg hob, if_neg hmi,
    if_pos hdig]
  rw [← List.cons_append, ← hcons]
  rw [takeWhile_append_all _ _ _ (natChars_digits m),
    takeWhile_eq_nil_of_head _ _ hrest, List.append_nil,
    dropWhile_append_all _ _ _ (natChars_digits m),
    dropWhile_eq_self_of_head _ _ hrest, natChars_foldDigits]

/-- The parser reads back the decimal print of an integer, stopping at a
non-digit continuation. -/
theorem parseJson_intChars (f : Nat) (i : Int) (rest : List Char)
    (hrest : ∀ c, rest.head? = some c → c.isDigit = false) :
    parseJson (f + 1) (intChars i ++ rest) = some (.num i, rest) := by
  rw [intChars]
  by_cases hneg : i < 0
  · rw [if_pos hneg, List.cons_append]
    obtain ⟨c0, cs0, hcons⟩ := List.exists_cons_of_ne_nil (natChars_ne_nil (-i).toNat)
    have hdig : c0.isDigit = true := natChars_digits _ c0 (by rw [hcons]; simp)
    simp only [parseJson]
    rw [if_neg (by decide : ('-' : Char) ≠ 'n'), if_neg (by decide : ('-' : Char) ≠ 't'),
      if_neg (by decide : ('-' : Char) ≠ 'f'), if_neg (by decide : ('-' : Char) ≠ '"'),
      if_neg (by decide : ('-' : Char) ≠ '['), if_neg (by decide : ('-' : Char) ≠ '\x7b')]
    simp only [if_true]
    rw [hcons, List.cons_append]
    simp only [List.head?_cons]
    rw [if_pos hdig]
    rw [← List.cons_append, ← hcons]
    rw [takeWhile_append_all _ _ _ (natChars_digits _),
      takeWhile_eq_nil_of_head _ _ hrest, List.append_nil,
      dropWhile_append_all _ _ _ (natChars_digits _),
      dropWhile_eq_self_of_head _ _ hrest, natChars_foldDigits]
    have : (Int.ofNat (-i).toNat) = -i := Int.toNat_of_nonneg (by omega)
    rw [this, neg_neg]
  · rw [if_neg hneg]
    have : (Int.ofNat i.toNat) = i := Int.toNat_of_nonneg (by omega)
    rw [parseJson_natChars f i.toNat rest hrest, this]

/-! ### Round-trip development for C5: string escaping -/

/-- Escaping distributes over cons. -/
theorem escList_cons (c : Char) (l : List Char) :
    escList (c :: l) = escapeChar c ++ escList l := by
  simp [escList]

/-- `hexDig` is inverted by `hexVal`. -/
theorem hexVal_hexDig (d : Nat) (h : d < 16) : hexVal (hexDig d) = some d := by
  interval_cases d <;> decide

/-- A `String` is rebuilt from its character data. -/
theorem string_mk_data (s : String) : String.mk s.data = s := by
  cases s
  rfl

/-- The parser consumes the escape of one character `c` and conses `c` onto
whatever the remainder of the string body parses to. -/
theorem parseStringBody_escapeChar (c : Char) (suffix : List Char) :
    parseStringBody (escapeChar c ++ suffix) =
      (parseStringBody suffix).map fun p => (c :: p.1, p.2) := by
  by_cases h1 : c = '"'
  · subst h1
    rw [show escapeChar '"' = ['\\', '"'] from rfl, List.cons_append,
      List.singleton_append, parseStringBody.eq_def]
    simp +decide [unescapeChar]
  by_cases h2 : c = '\\'
  · subst h2
    rw [show escapeChar '\\' = ['\\', '\\'] from rfl, List.cons_append,
      List.singleton_append, parseStringBody.eq_def]
    simp +decide [unescapeChar]
  by_cases h3 : c = '\n'
  · subst h3
    rw [show escapeChar '\n' = ['\\', 'n'] from rfl, List.cons_append,
      List.singleton_append, parseStringBody.eq_def]
    simp +decide [unescapeChar]
  by_cases h4 : c = '\r'
  · subst h4
    rw [show escapeChar '\r' = ['\\', 'r'] from rfl, List.cons_append,
      List.singleton_append, parseStringBody.eq_def]
    simp +decide [unescapeChar]
  by_cases h5 : c = '\t'
  · subst h5
    rw [show escapeChar '\t' = ['\\', 't'] from rfl, List.cons_append,
      List.singleton_append, parseStringBody.eq_def]
    simp +decide [unescapeChar]
  by_cases h6 : c = '\x08'
  · subst h6
    rw [show escapeChar '\x08' = ['\\', 'b'] from rfl, List.cons_append,
      List.singleton_append, parseStringBody.eq_def]
    simp +decide [unescapeChar]
  by_cases h7 : c = '\x0c'
  · subst h7
    rw [show escapeChar '\x0c' = ['\\', 'f'] from rfl, List.cons_append,
      List.singleton_append, parseStringBody.eq_def]
    simp +decide [unescapeChar]
  rw [escapeChar, if_neg h1, if_neg h2, if_neg h3, if_neg h4, if_neg h5, if_neg h6,
    if_neg h7]
  by_cases h8 : c.toNat < 32
  · rw [if_pos h8]
    have hhi : c.toNat / 16 < 16 := by omega
    have hlo : c.toNat % 16 < 16 := by omega
    simp only [List.cons_append, List.nil_append]
    rw [parseStringBody.eq_def]
    simp +decide [show hexVal '0' = some 0 from rfl, hexVal_hexDig _ hhi,
      hexVal_hexDig _ hlo]
    have hc : Char.ofNat (16 * (c.toNat / 16) + c.toNat % 16) = c := by
      rw [show 16 * (c.toNat / 16) + c.toNat % 16 = c.toNat by omega]
      exact Char.ofNat_toNat c
    rw [hc]
  · rw [if_neg h8]
    simp only [List.cons_append, List.nil_append]
    rw [parseStringBody.eq_def]
    simp only []
    rw [if_neg h1, if_neg h2, if_pos (by omega : 32 ≤ c.toNat)]

/-- The parser reads an escaped string body up to the closing quote and
recovers the original characters. -/
theorem parseStringBody_escList (l rest : List Char) :
    parseStringBody (escList l ++ '"' :: rest) = some (l, rest) := by
  induction l with
  | nil =>
    rw [show escList [] = [] from rfl, List.nil_append, parseStringBody.eq_def]
    simp
  | cons c l ih =>
    rw [escList_cons, List.append_assoc, parseStringBody_escapeChar, ih]
    rfl

/-- The parser reads a printed JSON string literal back to the same
`String`. -/
theorem parseJson_quoteChars (f : Nat) (s : String) (rest : List Char) :
    parseJson (f + 1) (quoteChars s ++ rest) = some (.str s, rest) := by
  rw [quoteChars]
  simp only [List.cons_append, List.append_assoc, List.singleton_append]
  simp only [parseJson]
  rw [if_neg (by decide : ('"' : Char) ≠ 'n'), if_neg (by decide : ('"' : Char) ≠ 't'),
    if_neg (by decide : ('"' : Char) ≠ 'f')]
  simp only [if_true, List.nil_append]
  rw [show escChars s = escList s.data from rfl, parseStringBody_escList s.data rest]
  simp [string_mk_data]

/-! ### Round-trip development for C5: objects and arrays -/

/-- Parse one `"key":value` member followed by a comma; the remaining
members parse as the reopened object `kvs`. -/
theorem parseJson_obj_more (f : Nat) (key : String) (vchars : List Char) (v : Json)
    (tailPairs rest : List Char) (kvs : List (String × Json))
    (hv : parseJson (f + 1) (vchars ++ ',' :: '"' :: tailPairs) =
      some (v, ',' :: '"' :: tailPairs))
    (hrec : parseJson (f + 1) ('\x7b' :: '"' :: tailPairs) = some (.obj kvs, rest)) :
    parseJson (f + 2) ('\x7b' :: '"' ::
        (escChars key ++ '"' :: ':' :: (vchars ++ ',' :: '"' :: tailPairs))) =
      some (.obj ((key, v) :: kvs), rest) := by
  rw [show f + 2 = (f + 1) + 1 from rfl, parseJson]
  simp only []
  rw [if_neg (by decide : ('\x7b' : Char) ≠ 'n'), if_neg (by decide : ('\x7b' : Char) ≠ 't'),
    if_neg (by decide : ('\x7b' : Char) ≠ 'f'), if_neg (by decide : ('\x7b' : Char) ≠ '"'),
    if_neg (by decide : ('\x7b' : Char) ≠ '[')]
  simp only [if_true, List.head?_cons, List.tail_cons]
  rw [show escChars key = escList key.data from rfl,
    parseStringBody_escList key.data (':' :: (vchars ++ ',' :: '"' :: tailPairs))]
  simp only [List.head?_cons, List.tail_cons]
  rw [if_neg (by decide : ¬(some ('"' : Char) = some '\x7d'))]
  simp only [if_true]
  rw [hv]
  simp only [List.head?_cons, List.tail_cons, if_true]
  rw [hrec]

/-- Parse the last `"key":value` member, followed by the closing brace. -/
theorem parseJson_obj_last (f : Nat) (key : String) (vchars : List Char) (v : Json)
    (rest : List Char)
    (hv : parseJson (f + 1) (vchars ++ '\x7d' :: rest) = some (v, '\x7d' :: rest)) :
    parseJson (f + 2) ('\x7b' :: '"' ::
        (escChars key ++ '"' :: ':' :: (vchars ++ '\x7d' :: rest))) =
      some (.obj [(key, v)], rest) := by
  rw [show f + 2 = (f + 1) + 1 from rfl, parseJson]
  simp only []
  rw [if_neg (by decide : ('\x7b' : Char) ≠ 'n'), if_neg (by decide : ('\x7b' : Char) ≠ 't'),
    if_neg (by decide : ('\x7b' : Char) ≠ 'f'), if_neg (by decide : ('\x7b' : Char) ≠ '"'),
    if_neg (by decide : ('\x7b' : Char) ≠ '[')]
  simp only [if_true, List.head?_cons, List.tail_cons]
  rw [show escChars key = escList key.data from rfl,
    parseStringBody_escList key.data (':' :: (vchars ++ '\x7d' :: rest))]
  simp only [List.head?_cons, List.tail_cons]
  rw [if_neg (by decide : ¬(some ('"' : Char) = some '\x7d'))]
  simp only [if_true]
  rw [hv]
  simp only [List.head?_cons, List.tail_cons]
  rw [if_neg (by decide : ¬(some ('\x7d' : Char) = some ','))]
  simp only [if_true, string_mk_data]

/-- The comma after a member value is not a digit (side condition for the
number value of the `id` member). -/
theorem comma_head_not_digit (tail : List Char) :
    ∀ c : Char, (',' :: tail).head? = some c → c.isDigit = false := by
  intro c hc
  simp only [List.head?] at hc
  rw [← Option.some_inj.mp hc]
  decide

/-- The closing brace after a member value is not a digit. -/
theorem brace_head_not_digit (tail : List Char) :
    ∀ c : Char, ('\x7d' :: tail).head? = some c → c.isDigit = false := by
  intro c hc
  simp only [List.head?] at hc
  rw [← Option.some_inj.mp hc]
  decide

/-- The parser reads one printed note object (without an `isNew` member)
back to its JSON document. -/
theorem parseJson_noteChars (f : Nat) (n : Note) (hNew : n.isNew = none)
    (rest : List Char) :
    parseJson (f + 5) (noteChars n ++ rest) = some (noteJsonCore n, rest) := by
  have h4 : parseJson (f + 2) ('\x7b' :: '"' ::
      (escChars "color" ++ '"' :: ':' :: (quoteChars n.color ++ '\x7d' :: rest))) =
      some (.obj [("color", .str n.color)], rest) :=
    parseJson_obj_last f "color" _ _ _ (parseJson_quoteChars (f) n.color ('\x7d' :: rest))
  have h3 : parseJson (f + 3) ('\x7b' :: '"' ::
      (escChars "content" ++ '"' :: ':' :: (quoteChars n.content ++ ',' :: '"' ::
        (escChars "color" ++ '"' :: ':' :: (quoteChars n.color ++ '\x7d' :: rest))))) =
      some (.obj [("content", .str n.content), ("color", .str n.color)], rest) :=
    parseJson_obj_more (f + 1) "content" _ _ _ rest _
      (parseJson_quoteChars (f + 1) n.content _) h4
  have h2 : parseJson (f + 4) ('\x7b' :: '"' ::
      (escChars "title" ++ '"' :: ':' :: (quoteChars n.title ++ ',' :: '"' ::
        (escChars "content" ++ '"' :: ':' :: (quoteChars n.content ++ ',' :: '"' ::
          (escChars "color" ++ '"' :: ':' :: (quoteChars n.color ++ '\x7d' :: rest))))))) =
      some (.obj [("title", .str n.title), ("content", .str n.content),
        ("color", .str n.color)], rest) :=
    parseJson_obj_more (f + 2) "title" _ _ _ rest _
      (parseJson_quoteChars (f + 2) n.title _) h3
  have h1 : parseJson (f + 5) ('\x7b' :: '"' ::
      (escChars "id" ++ '"' :: ':' :: (intChars n.id ++ ',' :: '"' ::
        (escChars "title" ++ '"' :: ':' :: (quoteChars n.title ++ ',' :: '"' ::
          (escChars "content" ++ '"' :: ':' :: (quoteChars n.content ++ ',' :: '"' ::
            (escChars "color" ++ '"' :: ':' :: (quoteChars n.color ++ '\x7d' :: rest))))))))) =
      some (.obj [("id", .num n.id), ("title", .str n.title),
        ("content", .str n.content), ("color", .str n.color)], rest) :=
    parseJson_obj_more (f + 3) "id" _ _ _ rest _
      (parseJson_intChars (f + 3) n.id _ (comma_head_not_digit _)) h2
  rw [show noteChars n ++ rest = '\x7b' :: '"' ::
      (escChars "id" ++ '"' :: ':' :: (intChars n.id ++ ',' :: '"' ::
        (escChars "title" ++ '"' :: ':' :: (quoteChars n.title ++ ',' :: '"' ::
          (escChars "content" ++ '"' :: ':' :: (quoteChars n.content ++ ',' :: '"' ::
            (escChars "color" ++ '"' :: ':' :: (quoteChars n.color ++ '\x7d' :: rest)))))))) from by
    simp [noteChars, keyVal, isNewChars, hNew]]
  exact h1

/-- A printed note object starts with an opening brace. -/
theorem noteChars_head (n : Note) : ∃ t, noteChars n = '\x7b' :: t :=
  ⟨_, rfl⟩

/-- The printed element tail of a nonempty collection starts with the
opening brace of its first note object. -/
theorem notesTail_cons_head (m : Note) (ms : List Note) (rest : List Char) :
    (notesTail (m :: ms) ++ rest).head? = some '\x7b' := by
  obtain ⟨t, ht⟩ := noteChars_head m
  cases ms <;> simp [notesTail, ht]

/-- The parser reads a printed element tail of the notes array back to the
corresponding JSON array of note objects. -/
theorem parseJson_notesTail (ns : List Note) (f : Nat) (rest : List Char)
    (h : ∀ n ∈ ns, n.isNew = none) :
    parseJson (f + 6 + ns.length) ('[' :: (notesTail ns ++ rest)) =
      some (.arr (ns.map noteJsonCore), rest) := by
  induction ns generalizing f with
  | nil =>
    rw [show f + 6 + ([] : List Note).length = (f + 5) + 1 from rfl,
      show notesTail ([] : List Note) = [']'] from rfl, parseJson]
    simp only [List.singleton_append]
    rw [if_neg (by decide : ('[' : Char) ≠ 'n'), if_neg (by decide : ('[' : Char) ≠ 't'),
      if_neg (by decide : ('[' : Char) ≠ 'f'), if_neg (by decide : ('[' : Char) ≠ '"')]
    simp only [if_true, List.head?_cons, List.tail_cons, List.map_nil]
  | cons n0 ns0 ih =>
    have hn0 : n0.isNew = none := h n0 (by simp)
    cases ns0 with
    | nil =>
      rw [show f + 6 + ([n0] : List Note).length = (f + 6) + 1 from rfl,
        show notesTail [n0] = noteChars n0 ++ [']'] from rfl, parseJson]
      simp only [List.append_assoc, List.singleton_append]
      rw [if_neg (by decide : ('[' : Char) ≠ 'n'), if_neg (by decide : ('[' : Char) ≠ 't'),
        if_neg (by decide : ('[' : Char) ≠ 'f'), if_neg (by decide : ('[' : Char) ≠ '"')]
      simp only [if_true]
      obtain ⟨t, ht⟩ := noteChars_head n0
      rw [ht, List.cons_append, List.head?_cons]
      rw [if_neg (by decide : ¬(some ('\x7b' : Char) = some ']'))]
      rw [← List.cons_append, ← ht]
      rw [show f + 6 = (f + 1) + 5 from rfl,
        parseJson_noteChars (f + 1) n0 hn0 (']' :: rest)]
      simp only [List.head?_cons, List.tail_cons]
      rw [if_neg (by decide : ¬(some (']' : Char) = some ','))]
      simp only [if_true, List.map_cons, List.map_nil]
    | cons n1 ns1 =>
      rw [show f + 6 + (n0 :: n1 :: ns1).length = (f + 6 + (n1 :: ns1).length) + 1 from rfl,
        show notesTail (n0 :: n1 :: ns1) = noteChars n0 ++ ',' :: notesTail (n1 :: ns1)
          from rfl, parseJson]
      simp only [List.append_assoc, List.cons_append]
      rw [if_neg (by decide : ('[' : Char) ≠ 'n'), if_neg (by decide : ('[' : Char) ≠ 't'),
        if_neg (by decide : ('[' : Char) ≠ 'f'), if_neg (by decide : ('[' : Char) ≠ '"')]
      simp only [if_true]
      obtain ⟨t, ht⟩ := noteChars_head n0
      rw [ht, List.cons_append, List.head?_cons]
      rw [if_neg (by decide : ¬(some ('\x7b' : Char) = some ']'))]
      rw [← List.cons_append, ← ht]
      rw [show f + 6 + (n1 :: ns1).length = (f + 1 + (n1 :: ns1).length) + 5 from by omega,
        parseJson_noteChars (f + 1 + (n1 :: ns1).length) n0 hn0
          (',' :: (notesTail (n1 :: ns1) ++ rest))]
      simp only [List.head?_cons, List.tail_cons, if_true]
      rw [notesTail_cons_head n1 ns1 rest]
      rw [if_neg (by decide : ¬(some ('\x7b' : Char) = some ']'))]
      rw [show f + 1 + (n1 :: ns1).length + 5 = f + 6 + (n1 :: ns1).length from by omega]
      rw [ih f (fun x hx => h x (by simp [hx]))]
      simp only [List.map_cons]

/-- Reading back one parsed note object yields the original note. -/
theorem noteFromJson_noteJsonCore (n : Note) (h : n.isNew = none) :
    noteFromJson (noteJsonCore n) = some n := by
  obtain ⟨i, t, c, col, inew⟩ := n
  simp only at h
  subst h
  rfl

/-- Reading back the parsed array elementwise yields the original notes. -/
theorem notesFromJsonList_map (ns : List Note) (h : ∀ n ∈ ns, n.isNew = none) :
    notesFromJsonList (ns.map noteJsonCore) = some ns := by
  induction ns with
  | nil => rfl
  | cons n ns ih =>
    rw [List.map_cons, notesFromJsonList.eq_def]
    simp only []
    rw [noteFromJson_noteJsonCore n (h n (by simp)),
      ih fun x hx => h x (by simp [hx])]

/-- A printed note object has at least 4 characters. -/
theorem noteChars_length (n : Note) : 4 ≤ (noteChars n).length := by
  simp [noteChars, keyVal]
  omega

/-- The printed element tail of a nonempty collection is long enough to
cover the fuel the array lemma consumes. -/
theorem notesTail_length (ns : List Note) (hne : ns ≠ []) :
    4 + ns.length ≤ (notesTail ns).length := by
  induction ns with
  | nil => exact absurd rfl hne
  | cons n0 ns0 ih =>
    cases ns0 with
    | nil =>
      have := noteChars_length n0
      simp [notesTail]
      omega
    | cons n1 ns1 =>
      have h1 := noteChars_length n0
      have h2 := ih (by simp)
      simp [notesTail] at h2 ⊢
      omega

/-- C5: serialization round-trip.  For every valid note collection — each
note carrying exactly the fields `id` (integer), `title`, `content`,
`color` (strings), i.e. no `isNew` member — deserializing the serialized
collection yields a collection equal to the original, including the empty
collection and notes with empty content. -/
theorem c5_round_trip (ns : List Note) (h : ∀ n ∈ ns, n.isNew = none) :
    deserializeNotes (serializeNotes ns) = some ns := by
  cases ns with
  | nil => rfl
  | cons n0 ns0 =>
    rw [deserializeNotes, jsonParse]
    rw [show (serializeNotes (n0 :: ns0)).data = '[' :: notesTail (n0 :: ns0) from rfl]
    have hlen : 4 + (n0 :: ns0).length ≤ (notesTail (n0 :: ns0)).length :=
      notesTail_length _ (by simp)
    obtain ⟨g, hg⟩ : ∃ g, ('[' :: notesTail (n0 :: ns0)).length + 1 =
        g + 6 + (n0 :: ns0).length := by
      refine ⟨('[' :: notesTail (n0 :: ns0)).length + 1 - (6 + (n0 :: ns0).length), ?_⟩
      simp only [List.length_cons] at hlen ⊢
      omega
    rw [hg]
    have harr := parseJson_notesTail (n0 :: ns0) g [] h
    rw [List.append_nil] at harr
    rw [harr]
    rw [show (some (Json.arr ((n0 :: ns0).map noteJsonCore), ([] : List Char))) =
        some (Json.arr ((n0 :: ns0).map noteJsonCore), ([] : List Char)) from rfl]
    simp only []
    rw [show (some (Json.arr ((n0 :: ns0).map noteJsonCore))).bind notesFromJson =
        notesFromJsonList ((n0 :: ns0).map noteJsonCore) from rfl]
    exact notesFromJsonList_map _ h

/-- C5, witness: the empty collection and a concrete two-note collection
(negative id, quotes, backslashes, newlines, empty strings) round-trip. -/
theorem c5_witness :
    deserializeNotes (serializeNotes []) = some [] ∧
    deserializeNotes (serializeNotes
      [{ id := -12, title := "a\"b\\c", content := "x\ny", color := "bg-red-500" },
       { id := 1700000000000, title := "", content := "", color := "bg-cyan-500" }]) =
      some [{ id := -12, title := "a\"b\\c", content := "x\ny", color := "bg-red-500" },
        { id := 1700000000000, title := "", content := "", color := "bg-cyan-500" }] :=
  ⟨c5_round_trip [] (by simp), c5_round_trip _ (by decide)⟩

end Noted
